import Mathlib

/-!
Verification of the SHL assessment recommendation system
(`recommendation_system` package) against its natural-language
specification.  The Python source is shallowly embedded: pure functions
become Lean functions over `Rat`/`String`/lists, and every external
network call (OpenAI embeddings, OpenAI chat, the Qdrant client, HTTP
fetches) is passed in explicitly as an oracle of type `... → Except String ...`,
so that raised exceptions of the collaborator become `Except.error` values.
-/

/-! ## Evaluation harness (`evaluate_recommender.py`) -/

/-- A retrieved assessment dictionary, as consumed by the metric functions
`calculate_recall_at_k` and `calculate_map_at_k`.  Those functions access
exactly one field of each dictionary, `item['name']`; the embedding keeps
that projection. -/
structure RetrievedItem where
  name : String
deriving Repr, DecidableEq

/-- Embeds `calculate_recall_at_k` (evaluate_recommender.py, lines 30-52):
if `relevant` is empty return 0.0; otherwise take the names of the first
`k` retrieved items, count how many entries of `relevant` occur among
them (`sum(1 for name in relevant if name in retrieved_names)`), and
divide by `len(relevant)`. -/
def calculate_recall_at_k (relevant : List String) (retrieved : List RetrievedItem)
    (k : Nat) : Rat :=
  if relevant.isEmpty then 0
  else
    let retrieved_names := (retrieved.take k).map (fun item => item.name)
    let found := relevant.countP (fun name => retrieved_names.contains name)
    (found : Rat) / (relevant.length : Rat)

/-- The accumulation loop of `calculate_map_at_k` (lines 76-80):
`for i, name in enumerate(retrieved_names): if name in relevant:
num_hits += 1; precision_sum += num_hits / (i + 1)`.  The arguments after
the list are the loop index `i`, `num_hits` and `precision_sum`; the
result is the final `(num_hits, precision_sum)`. -/
def mapLoop (relevant : List String) :
    List String → Nat → Nat → Rat → Nat × Rat
  | [], _, num_hits, precision_sum => (num_hits, precision_sum)
  | name :: rest, i, num_hits, precision_sum =>
    if relevant.contains name then
      mapLoop relevant rest (i + 1) (num_hits + 1)
        (precision_sum + ((num_hits + 1 : Nat) : Rat) / ((i + 1 : Nat) : Rat))
    else
      mapLoop relevant rest (i + 1) num_hits precision_sum

/-- Embeds `calculate_map_at_k` (evaluate_recommender.py, lines 54-86):
0.0 for empty `relevant`; otherwise run the accumulation loop over the
names of the first `k` retrieved items; 0.0 when no hit occurred;
otherwise `precision_sum / min(len(relevant), k)`. -/
def calculate_map_at_k (relevant : List String) (retrieved : List RetrievedItem)
    (k : Nat) : Rat :=
  if relevant.isEmpty then 0
  else
    let retrieved_names := (retrieved.take k).map (fun item => item.name)
    let result := mapLoop relevant retrieved_names 0 0 0
    if result.1 = 0 then 0
    else result.2 / ((min relevant.length k : Nat) : Rat)

/-! Spec-side formulations of the two metrics, written from the
specification's wording, to be compared with the embedded code. -/

/-- Number of relevant hits within the first `i` positions of `names`
("count of relevant hits found so far" at 1-indexed position `i`). -/
def hitsUpTo (relevant : List String) (names : List String) (i : Nat) : Nat :=
  ((names.take i).filter (fun n => relevant.contains n)).length

/-- Spec's Recall@K: "`|relevant ∩ names(retrieved[:k])| / |relevant|`;
returns 0.0 when `relevant` is empty", reading the intersection over the
`relevant` list. -/
def spec_recall_at_k (relevant : List String) (retrieved : List RetrievedItem)
    (k : Nat) : Rat :=
  if relevant.isEmpty then 0
  else
    let names := (retrieved.take k).map (fun item => item.name)
    ((relevant.filter (fun n => names.contains n)).length : Rat) /
      (relevant.length : Rat)

/-- Spec's MAP@K: "for each position `i` (1-indexed) in `retrieved[:k]`
whose name is in `relevant`, accumulate precision-at-`i` = (count of
relevant hits found so far) / i; average precision = sum of these terms
divided by `min(|relevant|, k)`; returns 0.0 if `relevant` is empty or no
hits occur in the top `k`". -/
def spec_map_at_k (relevant : List String) (retrieved : List RetrievedItem)
    (k : Nat) : Rat :=
  if relevant.isEmpty then 0
  else
    let names := (retrieved.take k).map (fun item => item.name)
    if hitsUpTo relevant names names.length = 0 then 0
    else
      (∑ j ∈ Finset.range names.length,
        if relevant.contains (names.getD j "") then
          ((hitsUpTo relevant names (j + 1) : Nat) : Rat) / ((j + 1 : Nat) : Rat)
        else 0) /
      ((min relevant.length k : Nat) : Rat)

/-! ## Python string primitives

`str.split(',')` and `str.strip()` are embedded as structural functions
on character lists so that concrete payload computations reduce. -/

/-- Python `str.split(sep)` for a one-character separator: splits at every
occurrence of `sep`, keeping empty pieces (`"".split(',') == [""]`). -/
def splitChars (sep : Char) : List Char → List (List Char)
  | [] => [[]]
  | c :: rest =>
    let r := splitChars sep rest
    if c = sep then [] :: r
    else (c :: r.headD []) :: r.tail

/-- Python `str.split(sep)` on strings. -/
def pysplit (s : String) (sep : Char) : List String :=
  (splitChars sep s.data).map String.mk

/-- Python `str.strip()`: drop whitespace from both ends. -/
def pystrip (s : String) : String :=
  String.mk (((s.data.dropWhile Char.isWhitespace).reverse.dropWhile
    Char.isWhitespace).reverse)

/-! ## Embedding provider adapter (`utils/vectorize.py`)

The OpenAI embeddings client is an explicit oracle argument; a raised
provider exception is the `Except.error` case of the oracle. -/

/-- The word budget of `get_embedding` (vectorize.py, line 29). -/
def max_tokens : Nat := 8000

/-- The input-length guard of `get_embedding` (vectorize.py, lines 30-31):
Python's `text.split()` splits on whitespace runs discarding empty pieces;
if more than `max_tokens` words remain, the first `max_tokens` are joined
back with single spaces, otherwise the text is passed through unchanged. -/
def truncate_text (text : String) : String :=
  let words := (text.split Char.isWhitespace).filter (fun w => w != "")
  if words.length > max_tokens then String.intercalate " " (words.take max_tokens)
  else text

/-- Embeds `get_embedding` (vectorize.py, lines 12-42).  On provider
success the returned embedding is passed through; on provider failure the
exception is caught, logged, and an all-zero vector of length 1536 is
returned in its place (lines 39-42). -/
def get_embedding (embed : String → Except String (List Rat)) (text : String) :
    List Rat :=
  match embed (truncate_text text) with
  | Except.ok embedding => embedding
  | Except.error _ => List.replicate 1536 0

/-- Embeds `batch_get_embeddings` (vectorize.py, lines 44-84): texts are
processed in batches of `batch_size = 100`; a batch whose provider call
fails contributes one zero vector of length 1536 per text of that batch
(lines 78-82); the inter-batch `time.sleep` is a no-op for the embedding. -/
def batch_get_embeddings (embed : List String → Except String (List (List Rat))) :
    List String → List (List Rat)
  | [] => []
  | texts@(_ :: _) =>
    let batch := texts.take 100
    (match embed batch with
     | Except.ok batch_embeddings => batch_embeddings
     | Except.error _ => List.replicate batch.length (List.replicate 1536 0)) ++
    batch_get_embeddings embed (texts.drop 100)
termination_by texts => texts.length
decreasing_by (simp_all [List.length_drop]; omega)

/-! ## Payload data model (`utils/data_processor.py`)

A Qdrant payload is an insertion-ordered mapping from field name to a
value that is either a string, a number, or a list of strings — exactly
the value shapes this system stores. -/

/-- A payload value: Python `str`, numeric, or `list[str]`. -/
inductive Value where
  | str : String → Value
  | num : Rat → Value
  | list : List String → Value
deriving Repr, DecidableEq

/-- A payload dictionary in insertion order. -/
abbrev Payload := List (String × Value)

/-- One row of the prepared assessment DataFrame.  After
`prepare_assessment_data` (`pd.read_csv` + `fillna('')` + `astype(str)`)
every column consumed by `create_assessment_payloads` holds a string. -/
structure AssessmentRow where
  name : String
  category : String
  description : String
  job_levels : String
  languages : String
  assessment_length : String
  remote_testing : String
  adaptive_irt : String
  test_type : String
  url : String
deriving Repr, DecidableEq

/-- Python dict assignment to an existing key: replace the value, keeping
the insertion position. -/
def setValue (p : Payload) (key : String) (v : Value) : Payload :=
  p.map (fun kv => if kv.1 = key then (key, v) else kv)

/-- Embeds `create_assessment_payloads` (data_processor.py, lines 53-87).
Each typed row has every column of `columns_to_include`, so the loop body
produces the ten fields in order; the `test_type` value is then
reassigned (lines 80-83): split on commas, strip each piece, and store
`test_types[0]` — a scalar string — when exactly one piece results,
the list of pieces otherwise. -/
def create_assessment_payloads (rows : List AssessmentRow) : List Payload :=
  rows.map (fun row =>
    let payload : Payload :=
      [("name", Value.str row.name), ("category", Value.str row.category),
       ("description", Value.str row.description),
       ("job_levels", Value.str row.job_levels),
       ("languages", Value.str row.languages),
       ("assessment_length", Value.str row.assessment_length),
       ("remote_testing", Value.str row.remote_testing),
       ("adaptive_irt", Value.str row.adaptive_irt),
       ("test_type", Value.str row.test_type), ("url", Value.str row.url)]
    let test_types := (pysplit row.test_type ',').map pystrip
    let tt : Value :=
      if test_types.length = 1 then Value.str (test_types.headD "")
      else Value.list test_types
    setValue payload "test_type" tt)

/-! ## Vector index (`utils/vector_store.py`)

The Qdrant client itself is external; the filter compiler and the
validation in `add_vectors` are embedded, and `client.search` /
`client.upsert` appear as oracles. -/

/-- A filter value as passed in the filter dictionary: a scalar string or
a list of strings. -/
inductive FilterValue where
  | str : String → FilterValue
  | list : List String → FilterValue
deriving Repr, DecidableEq

namespace Qdrant

/-- A Qdrant `FieldCondition`: either `MatchValue` (exact match on the
payload field `key`) or `MatchAny` (field matches any of the listed
values). -/
inductive Condition where
  | matchValue (key : String) (value : FilterValue)
  | matchAny (key : String) (any : List String)
deriving Repr, DecidableEq

/-- The payload field a condition constrains. -/
def Condition.key : Condition → String
  | .matchValue k _ => k
  | .matchAny k _ => k

/-- A Qdrant `Filter` with a conjunctive `must` list. -/
structure Filter where
  must : List Condition
deriving Repr, DecidableEq

end Qdrant

/-- Embeds `QdrantVectorStore._build_filter` (vector_store.py, lines
137-169): iterate the filter mapping in insertion order; a `test_type`
key holding a list becomes a `MatchAny` condition when the list is
non-empty (and nothing when it is empty); every other entry becomes a
`MatchValue` exact-match condition on the field of the same name. -/
def _build_filter (filters : List (String × FilterValue)) : Qdrant.Filter :=
  Qdrant.Filter.mk
    ((filters.map (fun kv =>
        if kv.1 = "test_type" then
          match kv.2 with
          | FilterValue.list value =>
              if value.length > 0 then [Qdrant.Condition.matchAny kv.1 value] else []
          | v => [Qdrant.Condition.matchValue kv.1 v]
        else [Qdrant.Condition.matchValue kv.1 kv.2])).flatten)

/-- The failure modes of `add_vectors`: the explicit
`ValueError("Vector size mismatch...")` raised by the dimension check
(the spec's `DimensionMismatch`), and the two errors
`np.array(vectors).shape[1]` itself raises before that check — numpy
refuses ragged rows (`ValueError: inhomogeneous shape`), and an empty
vectors list yields shape `(0,)` with no second axis (`IndexError`). -/
inductive AddVectorsError where
  | dimensionMismatch (expected got : Nat)
  | inhomogeneousShape
  | missingSecondAxis
deriving Repr, DecidableEq

/-- A Qdrant `PointStruct`: sequential id, vector, payload. -/
structure PointStruct where
  id : Nat
  vector : List Rat
  payload : Payload
deriving Repr, DecidableEq

/-- Embeds `QdrantVectorStore.add_vectors` (vector_store.py, lines
66-97).  `np.array(vectors)` is 2-D exactly when the list is non-empty
with rows of one common length; its `shape[1]` is that common length,
compared against the configured `vector_size`.  The points handed to
`client.upsert` come from `enumerate(zip(vectors, payloads))`, so the
result is the list of points (the upsert call's observable input). -/
def add_vectors (vector_size : Nat) (vectors : List (List Rat))
    (payloads : List Payload) : Except AddVectorsError (List PointStruct) :=
  match vectors with
  | [] => Except.error AddVectorsError.missingSecondAxis
  | v :: vs =>
    if vs.all (fun w => w.length == v.length) then
      if v.length = vector_size then
        Except.ok ((((v :: vs).zip payloads).enum).map
          (fun ip => PointStruct.mk ip.1 ip.2.1 ip.2.2))
      else Except.error (AddVectorsError.dimensionMismatch vector_size v.length)
    else Except.error AddVectorsError.inhomogeneousShape

/-- One scored point returned by the Qdrant client's `search`. -/
structure ScoredPoint where
  payload : Payload
  score : Rat
deriving Repr, DecidableEq

/-- Embeds `QdrantVectorStore.search` (vector_store.py, lines 99-135).
`client_search` is the Qdrant client oracle; a raised client exception is
its `Except.error` case.  A query filter is attached only when the filter
dictionary is non-empty; each result payload is copied and enriched with
the `relevance_score` field. -/
def VS_search
    (client_search : List Rat → Nat → Option Qdrant.Filter →
      Except String (List ScoredPoint))
    (query_vector : List Rat) (limit : Nat)
    (filters : List (String × FilterValue)) : Except String (List Payload) :=
  let query_filter : Option Qdrant.Filter :=
    if filters.length > 0 then some (_build_filter filters) else none
  match client_search query_vector limit query_filter with
  | Except.error e => Except.error e
  | Except.ok results =>
      Except.ok (results.map (fun res =>
        res.payload ++ [("relevance_score", Value.num res.score)]))

/-! ## Recommendation engine (`models/recommender.py`) -/

/-- The external collaborators of a recommender instance: the OpenAI
embeddings call, the OpenAI chat call (prompt ↦ stripped message
content), and the Qdrant client search. -/
structure RecommenderEnv where
  embed : String → Except String (List Rat)
  chat : String → Except String String
  client_search : List Rat → Nat → Option Qdrant.Filter →
    Except String (List ScoredPoint)

/-- Embeds `BaseRecommender._prepare_filters` (recommender.py, lines
140-165): include `remote_testing` and `adaptive_irt` when not `None`,
and `test_type` when the list is not `None` and non-empty. -/
def _prepare_filters (remote_testing adaptive_irt : Option String)
    (test_types : Option (List String)) : List (String × FilterValue) :=
  (match remote_testing with
   | some rt => [("remote_testing", FilterValue.str rt)]
   | none => []) ++
  (match adaptive_irt with
   | some ai => [("adaptive_irt", FilterValue.str ai)]
   | none => []) ++
  (match test_types with
   | some ts => if ts.length > 0 then [("test_type", FilterValue.list ts)] else []
   | none => [])

/-- Embeds `BaseRecommender.process_query` (recommender.py, lines 28-57):
embed the query, prepare the filters, and run the filtered vector
search. -/
def process_query (env : RecommenderEnv) (query : String)
    (remote_testing adaptive_irt : Option String)
    (test_types : Option (List String)) (limit : Nat) :
    Except String (List Payload) :=
  let query_embedding := get_embedding env.embed query
  let filters := _prepare_filters remote_testing adaptive_irt test_types
  VS_search env.client_search query_embedding limit filters

/-- The prompt built by `_enhance_query_with_gpt` (recommender.py, lines
99-115): one text naming the URL when a truthy job-description URL is
supplied, another quoting the query otherwise.  The wording is
reproduced; the leading indentation of the Python triple-quoted literals
is immaterial to every claim. -/
def gpt_prompt_with_url (url : String) : String :=
  "I have a job description available at " ++ url ++ ".\n" ++
  "Based on this job description, extract the key skills, competencies, and requirements.\n" ++
  "Format them as a detailed list that can be used to search for relevant assessments.\n" ++
  "Focus on technical skills, personality traits, competencies, and cognitive abilities."

def gpt_prompt_direct (query : String) : String :=
  "Extract the key skills, competencies, and requirements from this job description or query:\n\n" ++
  "\"" ++ query ++ "\"\n\n" ++
  "Format them as a detailed list that can be used to search for relevant assessments.\n" ++
  "Focus on technical skills, personality traits, competencies, and cognitive abilities."

/-- Prompt selection (`if job_description_url:` is Python truthiness, so
`None` and the empty string both select the direct prompt). -/
def gpt_prompt (query : String) (job_description_url : Option String) : String :=
  match job_description_url with
  | some url =>
    if url.isEmpty then gpt_prompt_direct query else gpt_prompt_with_url url
  | none => gpt_prompt_direct query

/-- Embeds `BaseRecommender._enhance_query_with_gpt` (recommender.py,
lines 88-138).  The chat oracle stands for the OpenAI call returning
`response.choices[0].message.content`; on success the stripped content is
appended to the original query (`f"{query} {enhanced_query}"`, line 133);
any exception is caught and the original query returned unchanged
(lines 135-138). -/
def _enhance_query_with_gpt (chat : String → Except String String)
    (query : String) (job_description_url : Option String) : String :=
  match chat (gpt_prompt query job_description_url) with
  | Except.ok content => query ++ " " ++ pystrip content
  | Except.error _ => query

/-- Embeds `BaseRecommender.enhanced_recommendations` (recommender.py,
lines 59-86): rewrite the query through GPT, then process the rewritten
query with the same filters and limit. -/
def enhanced_recommendations (env : RecommenderEnv) (query : String)
    (job_description_url : Option String)
    (remote_testing adaptive_irt : Option String)
    (test_types : Option (List String)) (limit : Nat) :
    Except String (List Payload) :=
  let enhanced_query := _enhance_query_with_gpt env.chat query job_description_url
  process_query env enhanced_query remote_testing adaptive_irt test_types limit

/-! ## Facade and URL entry point (`main.py`) -/

/-- The filter dictionary accepted by `SHLRecommender.recommend`; the
three keys it reads, each possibly absent. -/
structure FiltersDict where
  remote_testing : Option String
  adaptive_irt : Option String
  test_type : Option (List String)
deriving Repr

/-- Embeds `SHLRecommender.recommend` (main.py, lines 22-59): extract the
three filter parameters (each `None` when `filters` is `None` or lacks
the key) and dispatch to the enhanced or direct pipeline. -/
def SHL_recommend (env : RecommenderEnv) (query : String) (top_k : Nat)
    (enhanced : Bool) (filters : Option FiltersDict) :
    Except String (List Payload) :=
  let remote_testing := filters.bind (fun f => f.remote_testing)
  let adaptive_irt := filters.bind (fun f => f.adaptive_irt)
  let test_types := filters.bind (fun f => f.test_type)
  if enhanced then
    enhanced_recommendations env query none remote_testing adaptive_irt
      test_types top_k
  else
    process_query env query remote_testing adaptive_irt test_types top_k

/-- `re.sub(r'<[^>]+>', ' ', text)` (main.py, line 87) on the character
list: each leftmost non-overlapping occurrence of `<`, one or more
non-`>` characters, `>` is replaced by a single space; a `<` with no
following `>` (or immediately followed by `>`) is left in place. -/
def stripTagsAux : List Char → List Char
  | [] => []
  | c :: rest =>
    if c = '<' then
      match rest with
      | [] => ['<']
      | '>' :: rest2 => '<' :: stripTagsAux ('>' :: rest2)
      | c2 :: rest2 =>
        match h : (c2 :: rest2).dropWhile (fun ch => ch != '>') with
        | [] => '<' :: c2 :: rest2
        | _ :: after => ' ' :: stripTagsAux after
    else c :: stripTagsAux rest
termination_by cs => cs.length
decreasing_by
  · simp
  · have hs := (List.dropWhile_sublist (p := fun ch => ch != '>')
      (l := c2 :: rest2)).length_le
    rw [h] at hs
    simp at hs ⊢
    omega
  · simp

/-- Basic HTML tag removal (main.py, line 87). -/
def strip_tags (s : String) : String := String.mk (stripTagsAux s.data)

/-- Python `html.unescape` (main.py, line 89), embedded for the five
standard XML entities the markup this system fetches uses; the remainder
of the HTML5 entity table is a Python standard-library detail on which no
claim depends, and unrecognized `&` sequences pass through unchanged,
as in `html.unescape`. -/
def unescapeAux : List Char → List Char
  | '&' :: 'a' :: 'm' :: 'p' :: ';' :: rest => '&' :: unescapeAux rest
  | '&' :: 'l' :: 't' :: ';' :: rest => '<' :: unescapeAux rest
  | '&' :: 'g' :: 't' :: ';' :: rest => '>' :: unescapeAux rest
  | '&' :: 'q' :: 'u' :: 'o' :: 't' :: ';' :: rest => '"' :: unescapeAux rest
  | '&' :: '#' :: '3' :: '9' :: ';' :: rest => Char.ofNat 39 :: unescapeAux rest
  | c :: rest => c :: unescapeAux rest
  | [] => []

/-- HTML entity decoding (main.py, line 89). -/
def unescape (s : String) : String := String.mk (unescapeAux s.data)

/-- `re.sub(r'\s+', ' ', text)` (main.py, line 91): every run of
whitespace collapses to a single space. -/
def collapseWsAux : List Char → List Char
  | [] => []
  | c :: rest =>
    if c.isWhitespace then ' ' :: collapseWsAux (rest.dropWhile Char.isWhitespace)
    else c :: collapseWsAux rest
termination_by cs => cs.length
decreasing_by
  · have hs := (List.dropWhile_sublist (p := Char.isWhitespace)
      (l := rest)).length_le
    simp
    omega
  · simp

/-- Whitespace collapsing followed by `.strip()` (main.py, line 91). -/
def collapse_ws (s : String) : String := pystrip (String.mk (collapseWsAux s.data))

/-- The text-extraction pipeline of `recommend_from_url` (main.py, lines
87-91): strip tags, decode entities, collapse whitespace. -/
def extract_text (html : String) : String := collapse_ws (unescape (strip_tags html))

/-- The failure of `recommend_from_url`: the single
`Exception(f"Error fetching job description from URL: {e}")` raised on
line 97, which the spec's error taxonomy names `SourceFetchError`. -/
inductive RecommendError where
  | sourceFetchError (message : String)
deriving Repr, DecidableEq

/-- Embeds `SHLRecommender.recommend_from_url` (main.py, lines 61-97).
The HTTP fetch (`requests.get` + `raise_for_status`, modelled by the
`http_get` oracle returning the body or an error) and the delegated
`self.recommend` call sit inside one `try` block, so an exception from
either is re-raised as the wrapped URL-fetch error. -/
def recommend_from_url (env : RecommenderEnv)
    (http_get : String → Except String String) (url : String) (top_k : Nat)
    (enhanced : Bool) (filters : Option FiltersDict) :
    Except RecommendError (List Payload) :=
  match http_get url with
  | Except.error e =>
      Except.error (RecommendError.sourceFetchError
        ("Error fetching job description from URL: " ++ e))
  | Except.ok body =>
    let text_content := extract_text body
    match SHL_recommend env text_content top_k enhanced filters with
    | Except.ok results => Except.ok results
    | Except.error e =>
        Except.error (RecommendError.sourceFetchError
          ("Error fetching job description from URL: " ++ e))

/-! # Theorems -/

/-! Supporting lemmas about the accumulation loop. -/

theorem hitsUpTo_zero (rel names) : hitsUpTo rel names 0 = 0 := by simp [hitsUpTo]

theorem hitsUpTo_cons (rel : List String) (n : String) (rest : List String) (m : Nat) :
    hitsUpTo rel (n :: rest) (m + 1) =
      (if rel.contains n then 1 else 0) + hitsUpTo rel rest m := by
  simp only [hitsUpTo, List.take_succ_cons, List.filter_cons]
  split
  · simp [Nat.add_comm]
  · simp

/-- Closed form of the accumulation loop: the final hit count adds the number
of relevant names in the list, and the final precision sum adds, for each
hit position, the running hit count divided by the 1-indexed position. -/
theorem mapLoop_eq (rel : List String) (names : List String) :
    ∀ (i num_hits : Nat) (psum : Rat),
      mapLoop rel names i num_hits psum =
        (num_hits + hitsUpTo rel names names.length,
         psum + ∑ j ∈ Finset.range names.length,
           if rel.contains (names.getD j "") then
             ((num_hits + hitsUpTo rel names (j + 1) : Nat) : Rat) /
               ((i + j + 1 : Nat) : Rat)
           else 0) := by
  induction names with
  | nil => intro i nh ps; simp [mapLoop, hitsUpTo]
  | cons n rest ih =>
    intro i nh ps
    by_cases h : rel.contains n
    · rw [mapLoop, if_pos h, ih]
      refine Prod.ext ?_ ?_
      · simp only [List.length_cons, hitsUpTo_cons, if_pos h]
        omega
      · simp only [List.length_cons]
        rw [Finset.sum_range_succ']
        have hsum : ∀ j ∈ Finset.range rest.length,
            (if rel.contains ((n :: rest).getD (j + 1) "") then
              ((nh + hitsUpTo rel (n :: rest) (j + 1 + 1) : Nat) : Rat) /
                ((i + (j + 1) + 1 : Nat) : Rat)
            else 0) =
            (if rel.contains (rest.getD j "") then
              ((nh + 1 + hitsUpTo rel rest (j + 1) : Nat) : Rat) /
                ((i + 1 + j + 1 : Nat) : Rat)
            else 0) := by
          intro j _
          simp only [List.getD_cons_succ, hitsUpTo_cons, if_pos h]
          have e1 : nh + (1 + hitsUpTo rel rest (j + 1)) =
              nh + 1 + hitsUpTo rel rest (j + 1) := by omega
          have e2 : i + (j + 1) + 1 = i + 1 + j + 1 := by omega
          rw [e1, e2]
        rw [Finset.sum_congr rfl hsum]
        simp only [List.getD_cons_zero, hitsUpTo_cons, if_pos h, hitsUpTo_zero]
        have e3 : nh + (1 + 0) = nh + 1 := by omega
        have e4 : i + 0 + 1 = i + 1 := by omega
        rw [e3, e4]
        ring
    · rw [mapLoop, if_neg h, ih]
      refine Prod.ext ?_ ?_
      · simp only [List.length_cons, hitsUpTo_cons, if_neg h]
        omega
      · simp only [List.length_cons]
        rw [Finset.sum_range_succ']
        have hsum : ∀ j ∈ Finset.range rest.length,
            (if rel.contains ((n :: rest).getD (j + 1) "") then
              ((nh + hitsUpTo rel (n :: rest) (j + 1 + 1) : Nat) : Rat) /
                ((i + (j + 1) + 1 : Nat) : Rat)
            else 0) =
            (if rel.contains (rest.getD j "") then
              ((nh + hitsUpTo rel rest (j + 1) : Nat) : Rat) /
                ((i + 1 + j + 1 : Nat) : Rat)
            else 0) := by
          intro j _
          simp only [List.getD_cons_succ, hitsUpTo_cons, if_neg h]
          have e1 : (0 : Nat) + hitsUpTo rel rest (j + 1) =
              hitsUpTo rel rest (j + 1) := by omega
          have e2 : i + (j + 1) + 1 = i + 1 + j + 1 := by omega
          rw [e1, e2]
        rw [Finset.sum_congr rfl hsum]
        simp only [List.getD_cons_zero, if_neg h]
        ring

theorem hitsUpTo_full (rel names : List String) :
    hitsUpTo rel names names.length =
      (names.filter (fun n => rel.contains n)).length := by
  simp [hitsUpTo, List.take_length]

theorem indicator_sum (rel : List String) (names : List String) :
    (∑ j ∈ Finset.range names.length,
      if rel.contains (names.getD j "") then (1 : Rat) else 0) =
    (hitsUpTo rel names names.length : Rat) := by
  induction names with
  | nil => simp [hitsUpTo]
  | cons n rest ih =>
    simp only [List.length_cons]
    rw [Finset.sum_range_succ']
    simp only [List.getD_cons_succ, List.getD_cons_zero]
    rw [ih, hitsUpTo_cons]
    push_cast
    split <;> simp [add_comm]

/-- A no-duplicates list, filtered to the members of `rel`, is no longer
than `rel`. -/
theorem filter_length_le_of_nodup (rel names : List String) (h : names.Nodup) :
    (names.filter (fun n => rel.contains n)).length ≤ rel.length := by
  have hnd : (names.filter (fun n => rel.contains n)).Nodup := h.filter _
  have hsub : (names.filter (fun n => rel.contains n)).toFinset ⊆ rel.toFinset := by
    intro x hx
    rw [List.mem_toFinset] at hx ⊢
    exact List.elem_iff.mp (List.mem_filter.mp hx).2
  calc (names.filter (fun n => rel.contains n)).length
      = (names.filter (fun n => rel.contains n)).toFinset.card :=
        (List.toFinset_card_of_nodup hnd).symm
    _ ≤ rel.toFinset.card := Finset.card_le_card hsub
    _ ≤ rel.length := List.toFinset_card_le rel

/-- C3: `calculate_map_at_k` accumulates, at each 1-indexed position `i`
within the first `k` retrieved items whose name is in `relevant`, the
precision (hits so far)/`i`, returning the sum divided by
`min(|relevant|, k)`, with 0.0 for empty `relevant` or no hit in the top
`k` (stated as equality with the spec-side formulation `spec_map_at_k`);
in particular the two worked examples from the spec evaluate to `5/6`
(= 0.8333...) and `0`. -/
theorem C3_map_at_k_matches_spec :
    (∀ (relevant : List String) (retrieved : List RetrievedItem) (k : Nat),
      calculate_map_at_k relevant retrieved k = spec_map_at_k relevant retrieved k) ∧
    calculate_map_at_k ["A", "B"] [⟨"A"⟩, ⟨"X"⟩, ⟨"B"⟩, ⟨"Y"⟩] 4 = 5 / 6 ∧
    calculate_map_at_k ["A", "B", "C"] [⟨"X"⟩, ⟨"Y"⟩, ⟨"Z"⟩] 3 = 0 := by
  refine ⟨fun relevant retrieved k => ?_, ?_, ?_⟩
  · by_cases he : relevant.isEmpty
    · simp [calculate_map_at_k, spec_map_at_k, he]
    · simp only [calculate_map_at_k, spec_map_at_k, he, Bool.false_eq_true, if_false,
        mapLoop_eq, Nat.zero_add, Nat.add_zero, zero_add]
  · norm_num +decide [calculate_map_at_k, mapLoop]
  · norm_num +decide [calculate_map_at_k, mapLoop]

/-- C7: `calculate_recall_at_k` returns the number of relevant names
among the first `k` retrieved names divided by `|relevant|` (stated as
equality with the spec-side `spec_recall_at_k`), and both metrics return
exactly 0.0 on an empty `relevant` list, for any retrieved sequence and
any `k`. -/
theorem C7_recall_at_k_matches_spec :
    (∀ (relevant : List String) (retrieved : List RetrievedItem) (k : Nat),
      calculate_recall_at_k relevant retrieved k =
        spec_recall_at_k relevant retrieved k) ∧
    (∀ (retrieved : List RetrievedItem) (k : Nat),
      calculate_recall_at_k [] retrieved k = 0 ∧
        calculate_map_at_k [] retrieved k = 0) := by
  constructor
  · intro relevant retrieved k
    simp [calculate_recall_at_k, spec_recall_at_k, List.countP_eq_length_filter]
  · intro retrieved k
    constructor
    · simp [calculate_recall_at_k]
    · simp [calculate_map_at_k]

/-- C8 counterexample: with the duplicated name "A" at two positions of
the retrieved list, MAP@2 against `relevant = ["A"]` evaluates to 2,
which lies outside the interval [0, 1] asserted by the claim. -/
theorem C8_counterexample :
    calculate_map_at_k ["A"] [⟨"A"⟩, ⟨"A"⟩] 2 = 2 ∧
      ¬ calculate_map_at_k ["A"] [⟨"A"⟩, ⟨"A"⟩] 2 ≤ 1 := by
  have h : calculate_map_at_k ["A"] [⟨"A"⟩, ⟨"A"⟩] 2 = 2 := by
    norm_num +decide [calculate_map_at_k, mapLoop]
  refine ⟨h, ?_⟩
  rw [h]
  norm_num

/-- C8 (amended): for every relevant list and every `k`, if the names of
the first `k` retrieved items are pairwise distinct, the value of
`calculate_map_at_k` lies in the closed interval [0, 1]. -/
theorem C8_map_at_k_unit_interval (relevant : List String)
    (retrieved : List RetrievedItem) (k : Nat)
    (hnodup : ((retrieved.take k).map (fun item => item.name)).Nodup) :
    0 ≤ calculate_map_at_k relevant retrieved k ∧
      calculate_map_at_k relevant retrieved k ≤ 1 := by
  by_cases he : relevant.isEmpty
  · simp [calculate_map_at_k, he]
  · simp only [calculate_map_at_k, he, Bool.false_eq_true, if_false, mapLoop_eq,
      Nat.zero_add, Nat.add_zero, zero_add]
    set names := (retrieved.take k).map (fun item => item.name) with hnames
    by_cases h0 : hitsUpTo relevant names names.length = 0
    · simp [h0]
    · simp only [h0, if_false]
      have hterm : ∀ j ∈ Finset.range names.length,
          (if relevant.contains (names.getD j "") then
            ((hitsUpTo relevant names (j + 1) : Nat) : Rat) / ((j + 1 : Nat) : Rat)
          else 0) ≤
          (if relevant.contains (names.getD j "") then (1 : Rat) else 0) := by
        intro j _
        split
        · apply div_le_one_of_le₀
          · have hb : hitsUpTo relevant names (j + 1) ≤ j + 1 := by
              calc hitsUpTo relevant names (j + 1)
                  ≤ (names.take (j + 1)).length := List.length_filter_le _ _
                _ ≤ j + 1 := by rw [List.length_take]; omega
            exact_mod_cast hb
          · positivity
        · exact le_refl 0
      have hS_le : (∑ j ∈ Finset.range names.length,
          if relevant.contains (names.getD j "") then
            ((hitsUpTo relevant names (j + 1) : Nat) : Rat) / ((j + 1 : Nat) : Rat)
          else 0) ≤ (hitsUpTo relevant names names.length : Rat) := by
        calc _ ≤ ∑ j ∈ Finset.range names.length,
              (if relevant.contains (names.getD j "") then (1 : Rat) else 0) :=
            Finset.sum_le_sum hterm
          _ = _ := indicator_sum relevant names
      have hS_nonneg : 0 ≤ ∑ j ∈ Finset.range names.length,
          (if relevant.contains (names.getD j "") then
            ((hitsUpTo relevant names (j + 1) : Nat) : Rat) / ((j + 1 : Nat) : Rat)
          else 0) := by
        apply Finset.sum_nonneg
        intro j _
        split
        · positivity
        · exact le_refl 0
      have hhits_le : hitsUpTo relevant names names.length ≤
          min relevant.length k := by
        apply le_min
        · rw [hitsUpTo_full]
          exact filter_length_le_of_nodup relevant names hnodup
        · calc hitsUpTo relevant names names.length
              ≤ names.length := by rw [hitsUpTo_full]; exact List.length_filter_le _ _
            _ ≤ k := by rw [hnames, List.length_map, List.length_take]; omega
      constructor
      · apply div_nonneg hS_nonneg
        positivity
      · apply div_le_one_of_le₀
        · calc _ ≤ (hitsUpTo relevant names names.length : Rat) := hS_le
            _ ≤ ((min relevant.length k : Nat) : Rat) := by exact_mod_cast hhits_le
        · positivity

/-- Witness for the amended C8 theorem at a concrete distinct-name input. -/
theorem C8_witness :
    0 ≤ calculate_map_at_k ["A"] [⟨"A"⟩, ⟨"B"⟩] 2 ∧
      calculate_map_at_k ["A"] [⟨"A"⟩, ⟨"B"⟩] 2 ≤ 1 :=
  C8_map_at_k_unit_interval ["A"] [⟨"A"⟩, ⟨"B"⟩] 2 (by decide)

/-! ## Embedding-failure behavior (claim C1) -/

/-- With a provider that fails on every input, `batch_get_embeddings`
substitutes one zero vector per text. -/
theorem batch_get_embeddings_all_fail
    (bembed : List String → Except String (List (List Rat)))
    (hfail : ∀ batch, ∃ e, bembed batch = Except.error e) :
    ∀ texts, batch_get_embeddings bembed texts =
      List.replicate texts.length (List.replicate 1536 0) := by
  have key : ∀ (n : Nat) (texts : List String), texts.length ≤ n →
      batch_get_embeddings bembed texts =
        List.replicate texts.length (List.replicate 1536 0) := by
    intro n
    induction n with
    | zero =>
      intro texts hlen
      have hnil : texts = [] := List.eq_nil_of_length_eq_zero (by omega)
      subst hnil
      simp [batch_get_embeddings]
    | succ n ih =>
      intro texts hlen
      rcases texts with _ | ⟨t, ts⟩
      · simp [batch_get_embeddings]
      · obtain ⟨e, he⟩ := hfail ((t :: ts).take 100)
        rw [batch_get_embeddings]
        simp only [he]
        rw [ih ((t :: ts).drop 100)
            (by simp only [List.length_drop, List.length_cons] at hlen ⊢; omega),
          ← List.replicate_add]
        congr 1
        simp [List.length_take, List.length_drop]
        omega
  intro texts
  exact key texts.length texts le_rfl

/-- C1 counterexample: with an embedding provider that raises, the live
query path `get_embedding` returns the all-zero 1536-vector instead of
propagating the failure, and `process_query` on that same failing
provider completes successfully (returns an `ok` result) rather than
surfacing any `EmbeddingProviderError`. -/
theorem C1_counterexample :
    get_embedding (fun _ => Except.error "provider failure")
        "Looking for a Java developer assessment" = List.replicate 1536 0 ∧
    process_query
        (RecommenderEnv.mk (fun _ => Except.error "provider failure")
          (fun _ => Except.error "unused") (fun _ _ _ => Except.ok []))
        "Looking for a Java developer assessment" none none none 10 =
      Except.ok [] :=
  ⟨rfl, rfl⟩

/-- C1 (amended): an embedding-provider failure during a live query is
not propagated: `get_embedding` substitutes the all-zero vector of length
1536 and `process_query` proceeds, searching with that zero vector —
exactly the same per-batch substitution `batch_get_embeddings` applies
during bulk catalog building. -/
theorem C1_zero_vector_substitution (env : RecommenderEnv) (text e : String)
    (h : env.embed (truncate_text text) = Except.error e) :
    get_embedding env.embed text = List.replicate 1536 0 ∧
    (∀ (remote_testing adaptive_irt : Option String)
        (test_types : Option (List String)) (limit : Nat),
      process_query env text remote_testing adaptive_irt test_types limit =
        VS_search env.client_search (List.replicate 1536 0) limit
          (_prepare_filters remote_testing adaptive_irt test_types)) ∧
    (∀ (bembed : List String → Except String (List (List Rat)))
        (texts : List String),
      (∀ batch, ∃ e2, bembed batch = Except.error e2) →
      batch_get_embeddings bembed texts =
        List.replicate texts.length (List.replicate 1536 0)) := by
  have hz : get_embedding env.embed text = List.replicate 1536 0 := by
    unfold get_embedding
    rw [h]
  refine ⟨hz, fun rt ai tts limit => ?_,
    fun bembed texts hf => batch_get_embeddings_all_fail bembed hf texts⟩
  unfold process_query
  rw [hz]

/-- Witness for the amended C1 theorem at a concrete failing provider. -/
theorem C1_witness :
    get_embedding
        (RecommenderEnv.embed
          (RecommenderEnv.mk (fun _ => Except.error "provider failure")
            (fun _ => Except.error "unused") (fun _ _ _ => Except.ok [])))
        "hiring analysts" = List.replicate 1536 0 :=
  (C1_zero_vector_substitution
    (RecommenderEnv.mk (fun _ => Except.error "provider failure")
      (fun _ => Except.error "unused") (fun _ _ _ => Except.ok []))
    "hiring analysts" "provider failure" rfl).1

/-! ## Enhancement fallback (claim C5) -/

/-- C5: if the language-model rewriting call fails, the enhanced pipeline
returns exactly the ranked result list of the direct pipeline on the
original, unmodified query, with the same filters and limit. -/
theorem C5_enhancement_failure_fallback (env : RecommenderEnv)
    (query : String) (job_description_url : Option String)
    (remote_testing adaptive_irt : Option String)
    (test_types : Option (List String)) (limit : Nat) (e : String)
    (h : env.chat (gpt_prompt query job_description_url) = Except.error e) :
    enhanced_recommendations env query job_description_url remote_testing
        adaptive_irt test_types limit =
      process_query env query remote_testing adaptive_irt test_types limit := by
  unfold enhanced_recommendations _enhance_query_with_gpt
  rw [h]

/-- Witness for C5 at a chat provider that always times out. -/
theorem C5_witness :
    enhanced_recommendations
        (RecommenderEnv.mk (fun _ => Except.ok [])
          (fun _ => Except.error "timeout") (fun _ _ _ => Except.ok []))
        "python engineer" none none none none 5 =
      process_query
        (RecommenderEnv.mk (fun _ => Except.ok [])
          (fun _ => Except.error "timeout") (fun _ _ _ => Except.ok []))
        "python engineer" none none none 5 :=
  C5_enhancement_failure_fallback _ "python engineer" none none none none 5
    "timeout" rfl

/-! ## URL entry-point errors (claims C9 and C10) -/

/-- C9: a failing URL fetch surfaces from `recommend_from_url` as the
wrapped source-fetch error, and the call never returns a success
result in that case. -/
theorem C9_source_fetch_error (env : RecommenderEnv)
    (http_get : String → Except String String) (url : String) (top_k : Nat)
    (enhanced : Bool) (filters : Option FiltersDict) (e : String)
    (h : http_get url = Except.error e) :
    recommend_from_url env http_get url top_k enhanced filters =
      Except.error (RecommendError.sourceFetchError
        ("Error fetching job description from URL: " ++ e)) ∧
    ∀ results, recommend_from_url env http_get url top_k enhanced filters ≠
      Except.ok results := by
  have hmain : recommend_from_url env http_get url top_k enhanced filters =
      Except.error (RecommendError.sourceFetchError
        ("Error fetching job description from URL: " ++ e)) := by
    unfold recommend_from_url
    rw [h]
  exact ⟨hmain, fun results hc => by
    rw [hmain] at hc
    exact Except.noConfusion hc⟩

/-- Witness for C9 at a concrete unreachable URL. -/
theorem C9_witness :
    recommend_from_url
        (RecommenderEnv.mk (fun _ => Except.ok [])
          (fun _ => Except.error "unused") (fun _ _ _ => Except.ok []))
        (fun _ => Except.error "connection refused")
        "https://unreachable.example.com/job" 10 false none =
      Except.error (RecommendError.sourceFetchError
        ("Error fetching job description from URL: " ++ "connection refused")) :=
  (C9_source_fetch_error _ _ "https://unreachable.example.com/job" 10 false
    none "connection refused" rfl).1

/-- C10: after a successful fetch, a failure raised by the delegated
recommendation step is caught by the same `try` block and re-raised as
the identical wrapped URL-fetch error, so the caller cannot tell a fetch
failure from a later pipeline failure by the error raised. -/
theorem C10_pipeline_error_wrapped (env : RecommenderEnv)
    (http_get : String → Except String String) (url body : String)
    (top_k : Nat) (enhanced : Bool) (filters : Option FiltersDict) (e : String)
    (hfetch : http_get url = Except.ok body)
    (hrec : SHL_recommend env (extract_text body) top_k enhanced filters =
      Except.error e) :
    recommend_from_url env http_get url top_k enhanced filters =
      Except.error (RecommendError.sourceFetchError
        ("Error fetching job description from URL: " ++ e)) := by
  unfold recommend_from_url
  simp only [hfetch, hrec]

/-- Witness for C10: the fetch succeeds, the vector store is down, and
the surfaced error is the wrapped URL-fetch error. -/
theorem C10_witness :
    recommend_from_url
        (RecommenderEnv.mk (fun _ => Except.ok [])
          (fun _ => Except.error "unused")
          (fun _ _ _ => Except.error "vector store unavailable"))
        (fun _ => Except.ok "<p>data engineer role</p>")
        "https://example.com/job" 10 false none =
      Except.error (RecommendError.sourceFetchError
        ("Error fetching job description from URL: " ++
          "vector store unavailable")) :=
  C10_pipeline_error_wrapped _ _ "https://example.com/job"
    "<p>data engineer role</p>" 10 false none "vector store unavailable" rfl rfl

/-! ## Upsert validation (claim C2) -/

/-- C2 counterexample: one vector of the correct dimensionality (size 2
here) and zero payloads — a length mismatch — raises no error at all:
the call succeeds and the unmatched vector is silently dropped by the
`zip`, producing an empty point list. -/
theorem C2_counterexample :
    add_vectors 2 [[0, 0]] [] = Except.ok [] := rfl

/-- C2 (amended): `add_vectors` validates only the vector dimensionality.
With rows of one common length, a wrong common length raises the
dimension-mismatch error, and a correct one raises nothing — even when
the vector and payload counts differ, in which case `zip` silently drops
the unmatched tail and only `min` of the two counts becomes points. -/
theorem C2_add_vectors_validation (vector_size : Nat) (v : List Rat)
    (vs : List (List Rat)) (payloads : List Payload)
    (huniform : ∀ w ∈ vs, w.length = v.length) :
    (v.length = vector_size →
      add_vectors vector_size (v :: vs) payloads =
        Except.ok ((((v :: vs).zip payloads).enum).map
          (fun ip => PointStruct.mk ip.1 ip.2.1 ip.2.2)) ∧
      ((((v :: vs).zip payloads).enum).map
          (fun ip => PointStruct.mk ip.1 ip.2.1 ip.2.2)).length =
        min (v :: vs).length payloads.length) ∧
    (v.length ≠ vector_size →
      add_vectors vector_size (v :: vs) payloads =
        Except.error (AddVectorsError.dimensionMismatch vector_size v.length)) := by
  have hall : vs.all (fun w => w.length == v.length) = true := by
    rw [List.all_eq_true]
    intro w hw
    exact beq_iff_eq.mpr (huniform w hw)
  constructor
  · intro hdim
    constructor
    · simp only [add_vectors]
      rw [hall, hdim]
      simp
    · simp [List.length_zip]
  · intro hdim
    simp only [add_vectors]
    rw [hall]
    simp [hdim]

/-- Witness for the amended C2 theorem at one 2-dimensional vector and
one payload. -/
theorem C2_witness :
    (([0, 0] : List Rat).length = 2 →
      add_vectors 2 [[0, 0]] [[("name", Value.str "X")]] =
        Except.ok ((((([0, 0] : List Rat) :: []).zip
            [[("name", Value.str "X")]]).enum).map
          (fun ip => PointStruct.mk ip.1 ip.2.1 ip.2.2)) ∧
      (((([0, 0] : List Rat) :: []).zip [[("name", Value.str "X")]]).enum.map
          (fun ip => PointStruct.mk ip.1 ip.2.1 ip.2.2)).length =
        min (([0, 0] : List Rat) :: []).length [[("name", Value.str "X")]].length) ∧
    (([0, 0] : List Rat).length ≠ 2 →
      add_vectors 2 [[0, 0]] [[("name", Value.str "X")]] =
        Except.error (AddVectorsError.dimensionMismatch 2
          ([0, 0] : List Rat).length)) :=
  C2_add_vectors_validation 2 [0, 0] [] [[("name", Value.str "X")]] (by simp)

/-! ## Payload `test_type` shape (claim C4) -/

/-- C4 counterexample: a record with exactly one test type is stored with
`test_type` as a scalar string, not as a multi-valued field. -/
theorem C4_counterexample :
    ((create_assessment_payloads
        [AssessmentRow.mk "Verify Numerical Reasoning" "Aptitude" "desc"
          "Graduate" "English" "18" "Yes" "No" "Competencies"
          "https://example.com/a"]).headD []).lookup "test_type" =
      some (Value.str "Competencies") := by decide

/-- C4 (amended): the stored `test_type` field is a list exactly when the
comma-split of the record's test-type string yields more than one piece;
a record with exactly one test type gets a scalar string. -/
theorem C4_test_type_list_iff (row : AssessmentRow) (p : Payload)
    (hp : p ∈ create_assessment_payloads [row]) :
    (∃ ts, p.lookup "test_type" = some (Value.list ts)) ↔
      ((pysplit row.test_type ',').map pystrip).length ≠ 1 := by
  simp only [create_assessment_payloads, List.map_cons, List.map_nil,
    List.mem_singleton] at hp
  subst hp
  rw [List.length_map]
  by_cases h1 : (pysplit row.test_type ',').length = 1
  · simp +decide [setValue, List.lookup, h1]
  · simp +decide [setValue, List.lookup, h1]

/-- Witness for the amended C4 theorem: a two-type record stores a list. -/
theorem C4_witness :
    (∃ ts, (((create_assessment_payloads
        [AssessmentRow.mk "OPQ" "Personality" "d" "All" "English" "25"
          "Yes" "No" "Personality & Behavior, Competencies"
          "https://example.com/b"]).headD []).lookup "test_type") =
      some (Value.list ts)) ↔
      ((pysplit "Personality & Behavior, Competencies" ',').map pystrip).length ≠ 1 :=
  C4_test_type_list_iff
    (AssessmentRow.mk "OPQ" "Personality" "d" "All" "English" "25" "Yes" "No"
      "Personality & Behavior, Competencies" "https://example.com/b")
    ((create_assessment_payloads
        [AssessmentRow.mk "OPQ" "Personality" "d" "All" "English" "25" "Yes" "No"
          "Personality & Behavior, Competencies"
          "https://example.com/b"]).headD [])
    (by decide)

/-! ## Filter compilation (claim C6) -/

/-- C6 counterexample: a `test_type` key holding a list value — the empty
list — compiles to no predicate at all, not to a matches-any-of
predicate: the resulting filter has an empty `must` conjunction. -/
theorem C6_counterexample :
    _build_filter [("test_type", FilterValue.list [])] = Qdrant.Filter.mk [] := rfl

/-- Every condition emitted for one filter entry constrains exactly that
entry's key. -/
theorem build_filter_entry_key (k : String) (v : FilterValue) (c : Qdrant.Condition)
    (hc : c ∈ (if k = "test_type" then
        match v with
        | FilterValue.list value =>
            if value.length > 0 then [Qdrant.Condition.matchAny k value] else []
        | v => [Qdrant.Condition.matchValue k v]
      else [Qdrant.Condition.matchValue k v])) :
    Qdrant.Condition.key c = k := by
  by_cases hk : k = "test_type"
  · rw [if_pos hk] at hc
    rcases v with s | vs
    · simp only [List.mem_singleton] at hc
      subst hc
      rfl
    · by_cases hl : vs.length > 0
      · simp only [if_pos hl, List.mem_singleton] at hc
        subst hc
        rfl
      · simp [hl] at hc
  · rw [if_neg hk] at hc
    simp only [List.mem_singleton] at hc
    subst hc
    rfl

/-- C6 (amended): the filter compiler emits, for each mapping entry, an
exact-match predicate on the like-named payload field for every
scalar-valued key (known or unknown), a matches-any-of predicate for a
`test_type` key holding a non-empty list (an empty list emits nothing),
and nothing else — every emitted condition traces back to a present key,
and `_prepare_filters` emits keys only for arguments that are not `None`
(so absent keys impose no constraint). -/
theorem C6_filter_compilation (filters : List (String × FilterValue)) :
    (∀ k v, (k, v) ∈ filters →
      (k = "test_type" → ∀ vs, v ≠ FilterValue.list vs) →
      Qdrant.Condition.matchValue k v ∈ (_build_filter filters).must) ∧
    (∀ vs, ("test_type", FilterValue.list vs) ∈ filters → vs ≠ [] →
      Qdrant.Condition.matchAny "test_type" vs ∈ (_build_filter filters).must) ∧
    (∀ c, c ∈ (_build_filter filters).must →
      Qdrant.Condition.key c ∈ filters.map Prod.fst) ∧
    (∀ (remote_testing adaptive_irt : Option String)
        (test_types : Option (List String)) (k : String),
      k ∈ (_prepare_filters remote_testing adaptive_irt test_types).map Prod.fst →
        (k = "remote_testing" ∧ remote_testing ≠ none) ∨
        (k = "adaptive_irt" ∧ adaptive_irt ≠ none) ∨
        (k = "test_type" ∧ test_types ≠ none)) := by
  refine ⟨?_, ?_, ?_, ?_⟩
  · intro k v hkv hscalar
    simp only [_build_filter]
    rw [List.mem_flatten]
    refine ⟨_, List.mem_map_of_mem _ hkv, ?_⟩
    by_cases hk : k = "test_type"
    · subst hk
      rcases v with s | vs
      · simp
      · exact absurd rfl (hscalar rfl vs)
    · simp [hk]
  · intro vs hmem hne
    simp only [_build_filter]
    rw [List.mem_flatten]
    refine ⟨_, List.mem_map_of_mem _ hmem, ?_⟩
    have hl : vs.length > 0 := List.length_pos.mpr hne
    simp [hl]
  · intro c hc
    simp only [_build_filter] at hc
    rw [List.mem_flatten] at hc
    obtain ⟨l, hl, hcl⟩ := hc
    obtain ⟨kv, hkv, rfl⟩ := List.mem_map.mp hl
    rw [List.mem_map]
    exact ⟨kv, hkv, (build_filter_entry_key kv.1 kv.2 c hcl).symm⟩
  · intro rt ai tts k hk
    simp only [_prepare_filters, List.map_append, List.mem_append] at hk
    rcases hk with (h | h) | h
    · rcases rt with _ | r
      · simp at h
      · simp at h
        exact Or.inl ⟨h, by simp⟩
    · rcases ai with _ | a
      · simp at h
      · simp at h
        exact Or.inr (Or.inl ⟨h, by simp⟩)
    · rcases tts with _ | ts
      · simp at h
      · simp at h
        exact Or.inr (Or.inr ⟨h.2, by simp⟩)

/-- Witness for the amended C6 theorem at a concrete filter mapping with
one scalar key and one non-empty `test_type` list. -/
theorem C6_witness :
    Qdrant.Condition.matchValue "remote_testing" (FilterValue.str "Yes") ∈
      (_build_filter [("remote_testing", FilterValue.str "Yes"),
        ("test_type", FilterValue.list ["Competencies"])]).must ∧
    Qdrant.Condition.matchAny "test_type" ["Competencies"] ∈
      (_build_filter [("remote_testing", FilterValue.str "Yes"),
        ("test_type", FilterValue.list ["Competencies"])]).must :=
  ⟨(C6_filter_compilation _).1 "remote_testing" (FilterValue.str "Yes")
      (by simp) (fun hcontra => absurd hcontra (by decide)),
    (C6_filter_compilation _).2.1 ["Competencies"] (by simp) (by simp)⟩
